import Mathlib

/-!
Verification development for the `aviene-core` repository: a request-scoped
context store built on `AsyncLocalStorage`, a typed-lookup accessor
(`RequestContextService`), an exception base class capturing a correlation id
at construction, and a value-emptiness guard (`isEmpty`).

The JavaScript/TypeScript source is shallowly embedded: runtime values become
inductive types, mutation of the ambient context becomes explicit state
passing on `Option JsVal`, and `throw` becomes `Except`.
-/

/-! ## Runtime values for the context machinery

`RequestContext` (src/unnamed/part_001, `request-context.base`) is a class with
readonly fields `request` and `response`; `AppRequestContext` extends it and
adds a `requestId!: string` field that, despite the definite-assignment
assertion, is `undefined` at runtime until assigned.  An ambient context value
can be either of these two classes or some unrelated value; `prim` models any
value that is not an instance of `RequestContext` (tagged by a string so
distinct concrete objects can be told apart). -/
inductive JsVal where
  | prim (tag : String)
  | reqCtx (request : JsVal) (response : JsVal)
  | appReqCtx (request : JsVal) (response : JsVal) (requestId : Option String)
deriving DecidableEq, Repr

/-- JavaScript `v instanceof AppRequestContext`. -/
def isAppRequestContext : JsVal → Bool
  | .appReqCtx .. => true
  | _ => false

/-- Property read `v.request`: defined on both context classes, `undefined`
(modelled as `none`) on any other value. -/
def requestField : JsVal → Option JsVal
  | .reqCtx r _ => some r
  | .appReqCtx r _ _ => some r
  | .prim _ => none

/-- Property read `v.requestId`: the `AppRequestContext` field (possibly still
unassigned, hence `none`), `undefined` (`none`) on any other value. -/
def requestIdField : JsVal → Option String
  | .appReqCtx _ _ rid => rid
  | _ => none

namespace RequestContext

/-- `RequestContext.currentContext`, i.e. `RequestContext.cls.getStore()`: the
ambient context of the caller's dynamic extent, `undefined` (`none`) when no
`run` scope is active.  The ambient store visible at a program point is the
explicit state `store`. -/
def currentContext (store : Option JsVal) : Option JsVal := store

end RequestContext

/-! ## Thrown errors

`RequestContextService.getContext` throws a plain `new Error(...)`; the
exception taxonomy (`ExceptionBase` subclasses) is a different family of
throwable values.  Distinguishing the two constructors models "a
programmer-error signal distinct from domain exceptions". -/

/-- Optional non-sensitive diagnostic data (`Record<string, unknown>`),
modelled as an opaque key/value record. -/
structure Metadata where
  fields : List (String × String)
deriving DecidableEq, Repr

/-- A plain runtime `Error` used as a `cause`.  A plain `Error`'s `message`
and `stack` are own but non-enumerable properties, so it has no enumerable
own properties. -/
structure JsError where
  message : String
deriving DecidableEq, Repr

/-- The data of a constructed `ExceptionBase` instance: `message`, the `code`
fixed by the concrete subclass, the captured `correlationId` (declared
`string` but at runtime it is `ctx.requestId`, which may be `undefined`),
the optional `cause` and the optional `metadata`.  All fields are `readonly`;
the class has no mutating method. -/
structure ExceptionData where
  message : String
  code : String
  correlationId : Option String
  cause : Option JsError
  metadata : Option Metadata
deriving DecidableEq, Repr

/-- A value thrown by the embedded code: either a plain `new Error(msg)`
(programmer-error signal) or a domain exception of the taxonomy. -/
inductive ThrownError where
  | genericError (msg : String)
  | domainException (e : ExceptionData)
deriving DecidableEq, Repr

/-- The message of the `Error` thrown by `getContext`:
`` `Current context is not an instance of ${AppRequestContext.name}` ``. -/
def ctxNotAppMsg : String := "Current context is not an instance of AppRequestContext"

namespace RequestContextService

/-- `RequestContextService.getContext` (src/unnamed/part_001):
```
const ctx = RequestContext.currentContext?.request;
if (ctx instanceof AppRequestContext) return ctx;
throw new Error(...);
```
Note it narrows the `request` field of the stored context, not the stored
context itself. -/
def getContext (store : Option JsVal) : Except ThrownError JsVal :=
  match (RequestContext.currentContext store).bind requestField with
  | some ctx =>
    if isAppRequestContext ctx then .ok ctx
    else .error (.genericError ctxNotAppMsg)
  | none => .error (.genericError ctxNotAppMsg)

/-- Assignment `ctx.requestId = id` performed on the object returned by
`getContext`, i.e. on the `request` field of the stored context; the update is
written back into the explicit state (the model has no aliasing: each object
occurs at one place in the state tree). -/
def assignRequestId : JsVal → String → JsVal
  | .appReqCtx a b _, id => .appReqCtx a b (some id)
  | v, _ => v

/-- Rebuild the stored context with its `request` field replaced. -/
def withRequestField : JsVal → JsVal → JsVal
  | .reqCtx _ resp, r => .reqCtx r resp
  | .appReqCtx _ resp rid, r => .appReqCtx r resp rid
  | .prim t, _ => .prim t

/-- `RequestContextService.setRequestId(id)`: `getContext()` then mutate the
returned object's `requestId`.  Returns the updated ambient state. -/
def setRequestId (store : Option JsVal) (id : String) : Except ThrownError (Option JsVal) :=
  match getContext store with
  | .error e => .error e
  | .ok _ =>
    .ok (store.map fun c =>
      match requestField c with
      | some r => withRequestField c (assignRequestId r id)
      | none => c)

/-- `RequestContextService.getRequestId()`: `getContext().requestId`.  The
declared return type is `string`, but before `setRequestId` runs the runtime
value is `undefined` (`none`). -/
def getRequestId (store : Option JsVal) : Except ThrownError (Option String) :=
  match getContext store with
  | .error e => .error e
  | .ok ctx => .ok (requestIdField ctx)

end RequestContextService

namespace ExceptionBase

/-- `ExceptionBase`'s constructor
(src/packages/framework/exceptions/src/exception.base.ts):
```
super(message);
Error.captureStackTrace(this, this.constructor);
const ctx = RequestContextService.getContext();
this.correlationId = ctx.requestId;
```
A concrete subclass fixes `code` after `super` returns; `construct code` is a
completed subclass construction.  If `getContext` throws, the throw propagates
and no exception object is produced.  `stack` is representation-defined and
not modelled. -/
def construct (code : String) (store : Option JsVal) (message : String)
    (cause : Option JsError) (metadata : Option Metadata) :
    Except ThrownError ExceptionData :=
  match RequestContextService.getContext store with
  | .error e => .error e
  | .ok ctx =>
    .ok { message := message, code := code,
          correlationId := requestIdField ctx,
          cause := cause, metadata := metadata }

end ExceptionBase

/-- The runtime value of the `cause` property in the record `toJSON` returns:
`JSON.stringify(this.cause)` evaluates to a string when `this.cause` is an
object, and to `undefined` when `this.cause` is `undefined`.  The `errObj`
constructor stands for a live error object placed in the record unflattened;
the code never produces it. -/
inductive CauseField where
  | str (s : String)
  | errObj (e : JsError)
  | undef
deriving DecidableEq, Repr

/-- `JSON.stringify` applied to a plain runtime `Error`: plain `Error`s have no
enumerable own properties (`message` and `stack` are non-enumerable), so the
result is the two-character string of an empty JSON object. -/
def jsonStringifyError (_ : JsError) : String := "\x7b\x7d"

/-- `JSON.stringify(this.cause)` where `cause?: Error`:
`JSON.stringify(undefined)` is `undefined`, not a string. -/
def jsonStringifyCause : Option JsError → CauseField
  | none => .undef
  | some e => .str (jsonStringifyError e)

/-- The record returned by `toJSON` (interface `SerializedException`), minus
the representation-defined `stack` field. -/
structure SerializedException where
  message : String
  code : String
  correlationId : Option String
  cause : CauseField
  metadata : Option Metadata
deriving DecidableEq, Repr

/-- `ExceptionBase.toJSON`:
```
return { message: this.message, code: this.code, stack: this.stack,
         correlationId: this.correlationId,
         cause: JSON.stringify(this.cause), metadata: this.metadata };
```
(`stack` omitted from the model). -/
def ExceptionBase.toJSON (e : ExceptionData) : SerializedException :=
  { message := e.message, code := e.code,
    correlationId := e.correlationId,
    cause := jsonStringifyCause e.cause,
    metadata := e.metadata }

/-- Modelled from the spec: the error-code constants file
(`exception.codes.ts`) is not under src/; spec §6/§8 name the codes as string
identifiers and the round-trip example shows `code: "NOT_FOUND"`. -/
def NOT_FOUND : String := "NOT_FOUND"

namespace NotFoundException

/-- `NotFoundException`'s default message (`static readonly message`). -/
def defaultMessage : String := "Not found"

/-- `new NotFoundException(message)`
(src/packages/framework/exceptions/src/exceptions/not-found.exception.ts):
calls `super(message)` with no cause and no metadata and fixes
`code = NOT_FOUND`. -/
def construct (store : Option JsVal) (message : String) :
    Except ThrownError ExceptionData :=
  ExceptionBase.construct NOT_FOUND store message none none

end NotFoundException

/-! ## The value-emptiness guard

`isEmpty` (src/packages/framework/guards/src/guards/is-empty.guard.ts) branches
on `typeof value`; `JSValue` models the acyclic JavaScript values by that
classification.  `other` covers the `default` branch (`function`, `symbol`,
`bigint`); the numeric payload is irrelevant to the guard. -/
/-- Whitespace as stripped by JavaScript's `String.prototype.trim`, restricted
to the forms that occur in practice (the full JS set also has further Unicode
space characters; which characters count is orthogonal to the guard's
structure). -/
def jsWhitespace (c : Char) : Bool :=
  c == ' ' || c == '\t' || c == '\n' || c == '\r'

/-- `value.trim()`: strip leading and trailing whitespace. -/
def jsTrim (s : String) : String :=
  ⟨((s.data.dropWhile jsWhitespace).reverse.dropWhile jsWhitespace).reverse⟩

inductive JSValue where
  | jsNull
  | undef
  | num (n : Int)
  | bool (b : Bool)
  | str (s : String)
  | date
  | arr (elems : List JSValue)
  | obj (props : List (String × JSValue))
  | other

mutual

/-- `isEmpty`:
```
if (value === null || value === undefined) return true;
switch (typeof value) {
  case 'number': case 'boolean': return false;
  case 'string': return value.trim().length === 0;
  case 'object':
    if (value instanceof Date) return false;
    if (Array.isArray(value)) return value.length === 0 || value.every(isEmpty);
    return Object.keys(value).length === 0;
  default: return false;
}
``` -/
def isEmpty : JSValue → Bool
  | .jsNull => true
  | .undef => true
  | .num _ => false
  | .bool _ => false
  | .str s => (jsTrim s).length == 0
  | .date => false
  | .arr xs => xs.length == 0 || allEmpty xs
  | .obj props => props.length == 0
  | .other => false

/-- `value.every(isEmpty)` on the array's element list. -/
def allEmpty : List JSValue → Bool
  | [] => true
  | x :: xs => isEmpty x && allEmpty xs

end

/-- The emptiness characterization in the claim's words: the value is null or
undefined, a string whose trimmed length is zero, an array that is empty or
all of whose elements are recursively empty, or a non-Date, non-array object
with no own enumerable keys. -/
inductive IsEmptySpec : JSValue → Prop where
  | isNull : IsEmptySpec .jsNull
  | isUndef : IsEmptySpec .undef
  | blankStr (s : String) : (jsTrim s).length = 0 → IsEmptySpec (.str s)
  | emptyArr : IsEmptySpec (.arr [])
  | allEmptyArr (xs : List JSValue) : (∀ x ∈ xs, IsEmptySpec x) → IsEmptySpec (.arr xs)
  | emptyObj : IsEmptySpec (.obj [])

/-! ## The scoped context store under asynchronous interleaving

`RequestContext.cls` is a single process-wide `AsyncLocalStorage`; Node's
event loop interleaves logically concurrent requests on one thread.  The
model: each scheduled continuation carries the store frame captured when it
was created (this is `AsyncLocalStorage`'s semantics: `run(ctx, f)` makes
`ctx` the frame for `f`'s whole dynamic extent, and every continuation created
inside resumes under the frame current at its creation).  A task body is a
list of atomic segments separated by suspension points; `observe` is a
`getStore()` call (`RequestContext.currentContext`).  Object identity is
modelled by the frame storing the context value itself and `observe` logging
that very value. -/

namespace AsyncModel

/-- One step of a task body: read the ambient context, or suspend at an
asynchronous operation and resume later. -/
inductive Op where
  | observe
  | suspend
deriving DecidableEq, Repr

/-- A schedulable continuation: the task id, the `AsyncLocalStorage` frame
captured at its creation (`none` when it was created outside every `run`
scope), and the remaining body. -/
structure Cont (α : Type) where
  tid : Nat
  frame : Option α
  rest : List Op
deriving DecidableEq, Repr

/-- The event-loop state: runnable continuations sharing the one store, and
the log of `getStore()` observations `(tid, value returned)`. -/
structure Machine (α : Type) where
  tasks : List (Cont α)
  log : List (Nat × Option α)
deriving DecidableEq, Repr

/-- Run one continuation up to its next suspension point (or to completion):
the observations made, and the remaining body if it suspended.  A suspending
continuation captures the current frame — unchanged within a segment, since
no segment opcode re-enters `run`. -/
def runSeg (frame : Option α) (tid : Nat) : List Op → List (Nat × Option α) × Option (List Op)
  | [] => ([], none)
  | Op.observe :: rest =>
    let r := runSeg frame tid rest
    ((tid, frame) :: r.1, r.2)
  | Op.suspend :: rest => ([], some rest)

/-- The scheduler resumes the `i`-th runnable continuation; `getStore()`
during it returns its captured frame.  If it suspends, it is requeued with
the frame captured at the suspension point. -/
def step (m : Machine α) (i : Nat) : Machine α :=
  match m.tasks[i]? with
  | none => m
  | some c =>
    let r := runSeg c.frame c.tid c.rest
    { tasks := m.tasks.eraseIdx i ++
        (match r.2 with
         | some rest => [⟨c.tid, c.frame, rest⟩]
         | none => []),
      log := m.log ++ r.1 }

/-- Run the machine under an arbitrary scheduler choice sequence. -/
def exec (m : Machine α) : List Nat → Machine α
  | [] => m
  | i :: is => exec (step m i) is

/-- Two concurrent request extents sharing the store: the boundary layer of
request `i` called `RequestContext.cls.run(cᵢ, bodyᵢ)`, so task `i`'s root
continuation carries frame `some cᵢ`. -/
def twoRequests (c0 c1 : α) (body0 body1 : List Op) : Machine α :=
  { tasks := [⟨0, some c0, body0⟩, ⟨1, some c1, body1⟩], log := [] }

/-- One request extent entered via `run`, interleaved with code running
outside every `run` scope (frame `none`). -/
def scopedAndUnscoped (c : α) (body outside : List Op) : Machine α :=
  { tasks := [⟨0, some c, body⟩, ⟨1, none, outside⟩], log := [] }

/-- Every task's frame, and every logged observation, agrees with the fixed
per-task context assignment `f`. -/
def Consistent (f : Nat → Option α) (m : Machine α) : Prop :=
  (∀ c ∈ m.tasks, c.frame = f c.tid) ∧ (∀ p ∈ m.log, p.2 = f p.1)

end AsyncModel

/-! ## Concrete runtime values used in refutations and witnesses -/

/-- An `AppRequestContext` as the boundary layer would build one: `request`
and `response` are plain transport objects, `requestId` already assigned. -/
def directAppCtx : JsVal := .appReqCtx (.prim "httpReq") (.prim "httpRes") (some "abc")

/-- An ambient state whose stored context carries an `AppRequestContext` in
its `request` field, with `requestId` assigned to `"abc"`. -/
def wrappedAbc : Option JsVal :=
  some (.reqCtx (.appReqCtx (.prim "httpReq") (.prim "httpRes") (some "abc")) (.prim "httpRes"))

/-- Like `wrappedAbc` but with `requestId` not yet assigned. -/
def wrappedUnset : Option JsVal :=
  some (.reqCtx (.appReqCtx (.prim "httpReq") (.prim "httpRes") none) (.prim "httpRes"))

/-- Like `wrappedAbc` but with `requestId = "r-1"`. -/
def wrappedR1 : Option JsVal :=
  some (.reqCtx (.appReqCtx (.prim "httpReq") (.prim "httpRes") (some "r-1")) (.prim "httpRes"))

/-! ## Claim statements transcribed for refutation

Each `claimCnStatement` renders a claim in the exact shape it was made, to be
refuted at a concrete input. -/

/-- C1 as stated: `getContext` retrieves the ambient context and, if it is
present and itself narrows to `AppRequestContext`, returns that very
instance; if either condition fails it throws the programmer-error signal. -/
def claimC1Statement : Prop :=
  ∀ s : Option JsVal,
    (∀ c, RequestContext.currentContext s = some c → isAppRequestContext c = true →
      RequestContextService.getContext s = .ok c) ∧
    ((∀ c, RequestContext.currentContext s = some c → isAppRequestContext c = false) →
      ∃ m, RequestContextService.getContext s = .error (.genericError m)) ∧
    (RequestContext.currentContext s = none →
      ∃ m, RequestContextService.getContext s = .error (.genericError m))

/-- C3 as stated: construction with no ambient context fails with the
programmer-error signal, and `correlationId` is populated if and only if a
Request Context was active (ambient context present) at construction time. -/
def claimC3Statement : Prop :=
  (∀ (code msg : String) (cause : Option JsError) (md : Option Metadata),
    ∃ m, ExceptionBase.construct code none msg cause md = .error (.genericError m)) ∧
  (∀ (code : String) (s : Option JsVal) (msg : String) (cause : Option JsError)
      (md : Option Metadata) (ex : ExceptionData),
    ExceptionBase.construct code s msg cause md = .ok ex →
    (ex.correlationId.isSome = true ↔ RequestContext.currentContext s ≠ none))

/-- C6 as stated: every field except `stack` appears unchanged in
`serialize()`'s output, and the `NotFoundException("Widget missing")` example
serializes with `cause` equal to the string `"undefined"`. -/
def claimC6Statement : Prop :=
  (∀ ex : ExceptionData,
    (ExceptionBase.toJSON ex).message = ex.message ∧
    (ExceptionBase.toJSON ex).code = ex.code ∧
    (ExceptionBase.toJSON ex).correlationId = ex.correlationId ∧
    (ExceptionBase.toJSON ex).metadata = ex.metadata) ∧
  (∀ (s : Option JsVal) (r : JsVal),
    (RequestContext.currentContext s).bind requestField = some r →
    requestIdField r = some "r-1" →
    ∃ ex, NotFoundException.construct s "Widget missing" = .ok ex ∧
      ExceptionBase.toJSON ex =
        ⟨"Widget missing", "NOT_FOUND", some "r-1", .str "undefined", none⟩)

/-- C8 as stated: a `getContext` success returns the `request` field of the
stored context, and storing an `AppRequestContext` directly as the ambient
context makes `getContext` throw. -/
def claimC8Statement : Prop :=
  (∀ (s : Option JsVal) (c : JsVal), RequestContextService.getContext s = .ok c →
    (RequestContext.currentContext s).bind requestField = some c ∧
    isAppRequestContext c = true) ∧
  (∀ (a b : JsVal) (rid : Option String),
    ∃ m, RequestContextService.getContext (some (.appReqCtx a b rid)) =
      .error (.genericError m))

/-! ## Helper lemmas about the accessor -/

theorem getContext_ok_iff (s : Option JsVal) (c : JsVal) :
    RequestContextService.getContext s = .ok c ↔
      ((RequestContext.currentContext s).bind requestField = some c ∧
        isAppRequestContext c = true) := by
  unfold RequestContextService.getContext
  split
  next r heq =>
    by_cases ha : isAppRequestContext r = true
    · rw [if_pos ha]
      constructor
      · intro h
        injection h with h'
        subst h'
        exact ⟨heq, ha⟩
      · rintro ⟨hc, _⟩
        rw [heq] at hc
        injection hc with h'
        subst h'
        rfl
    · rw [if_neg ha]
      constructor
      · intro h; exact Except.noConfusion h
      · rintro ⟨hc, hca⟩
        rw [heq] at hc
        injection hc with h'
        subst h'
        exact absurd hca ha
  next heq =>
    constructor
    · intro h; exact Except.noConfusion h
    · rintro ⟨hc, _⟩
      rw [heq] at hc
      exact Option.noConfusion hc

theorem getContext_error_eq (s : Option JsVal) (e : ThrownError)
    (h : RequestContextService.getContext s = .error e) :
    e = .genericError ctxNotAppMsg := by
  unfold RequestContextService.getContext at h
  split at h
  next r heq =>
    split at h
    · exact Except.noConfusion h
    · exact (Except.error.inj h).symm
  next heq => exact (Except.error.inj h).symm

/-- C1 — counterexample.  Store an `AppRequestContext` built the way the
boundary layer would build one directly as the ambient context: the claim
says `getContext` returns that very instance, but the code inspects its
`request` field (a plain transport object) and throws. -/
theorem claimC1_false : ¬ claimC1Statement := by
  intro h
  have h1 := (h (some directAppCtx)).1 directAppCtx rfl rfl
  have h2 : (Except.error (ThrownError.genericError ctxNotAppMsg) : Except ThrownError JsVal) =
      .ok directAppCtx := h1
  exact Except.noConfusion h2

/-- C1 — amended.  `getContext` succeeds exactly when the ambient context is
present and its `request` field is an `AppRequestContext`, in which case it
returns that `request`-field instance; in every other case (no ambient
context, or the `request` field does not narrow) it throws the plain-`Error`
programmer-error signal, never a domain exception. -/
theorem getContext_requestField_narrowing (s : Option JsVal) :
    (∀ c, RequestContextService.getContext s = .ok c ↔
      ((RequestContext.currentContext s).bind requestField = some c ∧
        isAppRequestContext c = true)) ∧
    (∀ e, RequestContextService.getContext s = .error e →
      e = .genericError ctxNotAppMsg) ∧
    ((∀ c, (RequestContext.currentContext s).bind requestField = some c →
        isAppRequestContext c = false) →
      RequestContextService.getContext s = .error (.genericError ctxNotAppMsg)) := by
  refine ⟨fun c => getContext_ok_iff s c, getContext_error_eq s, fun hall => ?_⟩
  unfold RequestContextService.getContext
  split
  next r heq => simp [hall r heq]
  next heq => rfl

theorem getContext_requestField_narrowing_witness :
    RequestContextService.getContext none = .error (.genericError ctxNotAppMsg) ∧
    RequestContextService.getContext wrappedAbc =
      .ok (.appReqCtx (.prim "httpReq") (.prim "httpRes") (some "abc")) :=
  ⟨(getContext_requestField_narrowing none).2.2 (fun _ hc => Option.noConfusion hc),
   ((getContext_requestField_narrowing wrappedAbc).1 _).mpr ⟨rfl, rfl⟩⟩

/-- C8 — counterexample.  The claim's last clause says storing an
`AppRequestContext` directly as the ambient context always makes
`getContext` throw; but if the stored instance's own `request` field happens
to be an `AppRequestContext`, `getContext` succeeds (returning the nested
instance). -/
theorem claimC8_false : ¬ claimC8Statement := by
  intro h
  obtain ⟨m, hm⟩ := h.2 directAppCtx (.prim "httpRes") none
  have hok : RequestContextService.getContext
      (some (.appReqCtx directAppCtx (.prim "httpRes") none)) = .ok directAppCtx := rfl
  rw [hok] at hm
  exact Except.noConfusion hm

/-- C8 — amended.  A `getContext` success returns the `request` field of the
stored ambient context (never the stored context itself) and that field is an
`AppRequestContext`; storing an `AppRequestContext` directly as the ambient
context makes `getContext` throw whenever its own `request` field is not
itself an `AppRequestContext` (as with any normally constructed one). -/
theorem getContext_returns_stored_request :
    (∀ (s : Option JsVal) (c : JsVal), RequestContextService.getContext s = .ok c →
      (RequestContext.currentContext s).bind requestField = some c ∧
      isAppRequestContext c = true) ∧
    (∀ (a b : JsVal) (rid : Option String), isAppRequestContext a = false →
      RequestContextService.getContext (some (.appReqCtx a b rid)) =
        .error (.genericError ctxNotAppMsg)) := by
  constructor
  · exact fun s c h => (getContext_ok_iff s c).mp h
  · intro a b rid ha
    unfold RequestContextService.getContext
    split
    next r heq =>
      have : r = a := by
        have : requestField (JsVal.appReqCtx a b rid) = some r := heq
        exact (Option.some.inj this).symm
      subst this
      simp [ha]
    next heq => rfl

theorem getContext_returns_stored_request_witness :
    ((RequestContext.currentContext wrappedAbc).bind requestField =
        some (.appReqCtx (.prim "httpReq") (.prim "httpRes") (some "abc")) ∧
      isAppRequestContext (.appReqCtx (.prim "httpReq") (.prim "httpRes") (some "abc")) = true) ∧
    RequestContextService.getContext (some (.appReqCtx (.prim "httpReq") (.prim "httpRes") (some "abc"))) =
      .error (.genericError ctxNotAppMsg) :=
  ⟨getContext_returns_stored_request.1 wrappedAbc _ rfl,
   getContext_returns_stored_request.2 (.prim "httpReq") (.prim "httpRes") (some "abc") rfl⟩

/-- Helper: a successful `ExceptionBase` construction under an ambient context
whose `request` field carries `requestId = rid` yields exactly the record with
`correlationId = some rid`. -/
theorem construct_ok (code : String) (s : Option JsVal) (r : JsVal) (rid msg : String)
    (cause : Option JsError) (md : Option Metadata)
    (hr : (RequestContext.currentContext s).bind requestField = some r)
    (hrid : requestIdField r = some rid) :
    ExceptionBase.construct code s msg cause md = .ok ⟨msg, code, some rid, cause, md⟩ := by
  have happ : isAppRequestContext r = true := by
    cases r with
    | appReqCtx a b q => rfl
    | prim t => exact Option.noConfusion hrid
    | reqCtx a b => exact Option.noConfusion hrid
  have hok : RequestContextService.getContext s = .ok r :=
    (getContext_ok_iff s r).mpr ⟨hr, happ⟩
  unfold ExceptionBase.construct
  rw [hok]
  show Except.ok (⟨msg, code, requestIdField r, cause, md⟩ : ExceptionData) = _
  rw [hrid]

/-- C2 — an `ExceptionBase` instance constructed while a Request Context with
`requestId = rid` is ambient gets `correlationId = rid`; the field is
`readonly`, the class has no mutator, and the only observer (`toJSON`) reports
it unchanged. -/
theorem exceptionBase_captures_requestId (code : String) (s : Option JsVal) (r : JsVal)
    (rid msg : String) (cause : Option JsError) (md : Option Metadata)
    (hr : (RequestContext.currentContext s).bind requestField = some r)
    (hrid : requestIdField r = some rid) :
    ExceptionBase.construct code s msg cause md =
      .ok ⟨msg, code, some rid, cause, md⟩ ∧
    (ExceptionBase.toJSON ⟨msg, code, some rid, cause, md⟩).correlationId = some rid :=
  ⟨construct_ok code s r rid msg cause md hr hrid, rfl⟩

theorem exceptionBase_captures_requestId_witness :
    (ExceptionBase.construct "NOT_FOUND" wrappedAbc "boom" none none =
      .ok ⟨"boom", "NOT_FOUND", some "abc", none, none⟩) ∧
    (ExceptionBase.toJSON ⟨"boom", "NOT_FOUND", some "abc", none, none⟩).correlationId =
      some "abc" :=
  exceptionBase_captures_requestId "NOT_FOUND" wrappedAbc
    (.appReqCtx (.prim "httpReq") (.prim "httpRes") (some "abc"))
    "abc" "boom" none none rfl rfl

/-- C3 — counterexample.  With an ambient context whose `AppRequestContext`
has not had `setRequestId` called, construction succeeds but produces
`correlationId = undefined`: `correlationId` is not populated although a
Request Context was active, refuting the claimed if-and-only-if. -/
theorem claimC3_false : ¬ claimC3Statement := by
  intro h
  have h2 := h.2 "X" wrappedUnset "m" none none ⟨"m", "X", none, none, none⟩ rfl
  have h3 := h2.mpr (fun hc => Option.noConfusion hc)
  exact Bool.noConfusion h3

/-- C3 — amended.  Construction with no ambient context fails fast with the
plain-`Error` programmer-error signal (no exception object is produced); when
construction succeeds, a context was active whose `request` field is an
`AppRequestContext`, and `correlationId` equals that context's `requestId` —
so a populated `correlationId` implies an active context, but an active
context yields `correlationId = undefined` until `setRequestId` has run. -/
theorem exceptionBase_failfast (code msg : String) (cause : Option JsError) (md : Option Metadata) :
    ExceptionBase.construct code none msg cause md =
      .error (.genericError ctxNotAppMsg) ∧
    (∀ (s : Option JsVal) (ex : ExceptionData),
      ExceptionBase.construct code s msg cause md = .ok ex →
      RequestContext.currentContext s ≠ none ∧
      ∃ r, (RequestContext.currentContext s).bind requestField = some r ∧
        isAppRequestContext r = true ∧ ex.correlationId = requestIdField r) := by
  constructor
  · rfl
  · intro s ex h
    unfold ExceptionBase.construct at h
    cases hg : RequestContextService.getContext s with
    | error e => rw [hg] at h; exact Except.noConfusion h
    | ok r =>
      rw [hg] at h
      have h' : (⟨msg, code, requestIdField r, cause, md⟩ : ExceptionData) = ex :=
        Except.ok.inj h
      obtain ⟨hr, happ⟩ := (getContext_ok_iff s r).mp hg
      refine ⟨fun hnone => ?_, r, hr, happ, ?_⟩
      · rw [hnone] at hr
        exact Option.noConfusion hr
      · rw [← h']

theorem exceptionBase_failfast_witness :
    (ExceptionBase.construct "NOT_FOUND" none "m" none none =
      .error (.genericError ctxNotAppMsg)) ∧
    (RequestContext.currentContext wrappedUnset ≠ none ∧
      ∃ r, (RequestContext.currentContext wrappedUnset).bind requestField = some r ∧
        isAppRequestContext r = true ∧
        (⟨"m", "NOT_FOUND", none, none, none⟩ : ExceptionData).correlationId = requestIdField r) :=
  ⟨(exceptionBase_failfast "NOT_FOUND" "m" none none).1,
   (exceptionBase_failfast "NOT_FOUND" "m" none none).2 wrappedUnset
     ⟨"m", "NOT_FOUND", none, none, none⟩ rfl⟩

/-- C9 — before `setRequestId` runs for a correctly installed context,
`getRequestId()` returns `undefined` (neither a string nor a throw), an
exception constructed in that window gets `correlationId = undefined`, and
after `setRequestId(id)` a `getRequestId()` returns exactly `id`. -/
theorem requestId_lifecycle (outer a b : JsVal)
    (hreq : requestField outer = some (.appReqCtx a b none)) :
    RequestContextService.getRequestId (some outer) = .ok none ∧
    (∀ (code msg : String) (cause : Option JsError) (md : Option Metadata),
      ExceptionBase.construct code (some outer) msg cause md =
        .ok ⟨msg, code, none, cause, md⟩) ∧
    (∀ id : String, ∃ outer',
      RequestContextService.setRequestId (some outer) id = .ok (some outer') ∧
      RequestContextService.getRequestId (some outer') = .ok (some id)) := by
  cases outer with
  | prim t => exact Option.noConfusion hreq
  | reqCtx r0 resp =>
    have hr0 : r0 = .appReqCtx a b none := Option.some.inj hreq
    subst hr0
    exact ⟨rfl, fun code msg cause md => rfl,
      fun id => ⟨.reqCtx (.appReqCtx a b (some id)) resp, rfl, rfl⟩⟩
  | appReqCtx r0 resp rid0 =>
    have hr0 : r0 = .appReqCtx a b none := Option.some.inj hreq
    subst hr0
    exact ⟨rfl, fun code msg cause md => rfl,
      fun id => ⟨.appReqCtx (.appReqCtx a b (some id)) resp rid0, rfl, rfl⟩⟩

theorem requestId_lifecycle_witness :
    RequestContextService.getRequestId wrappedUnset = .ok none ∧
    ExceptionBase.construct "X" wrappedUnset "m" none none =
      .ok ⟨"m", "X", none, none, none⟩ ∧
    ∃ outer', RequestContextService.setRequestId wrappedUnset "r-9" = .ok (some outer') ∧
      RequestContextService.getRequestId (some outer') = .ok (some "r-9") := by
  obtain ⟨h1, h2, h3⟩ := requestId_lifecycle
    (.reqCtx (.appReqCtx (.prim "httpReq") (.prim "httpRes") none) (.prim "httpRes"))
    (.prim "httpReq") (.prim "httpRes") rfl
  exact ⟨h1, h2 "X" "m" none none, h3 "r-9"⟩

/-- C6 — counterexample.  `JSON.stringify(undefined)` is `undefined`, not the
string `"undefined"`: the `NotFoundException("Widget missing")` example
serializes with `cause` absent (`undefined`), refuting the claimed record
whose `cause` is the string `"undefined"`. -/
theorem claimC6_false : ¬ claimC6Statement := by
  intro h
  obtain ⟨ex, hc, hj⟩ := h.2 wrappedR1
    (.appReqCtx (.prim "httpReq") (.prim "httpRes") (some "r-1")) rfl rfl
  have hex : (⟨"Widget missing", NOT_FOUND, some "r-1", none, none⟩ : ExceptionData) = ex := by
    have hstep : NotFoundException.construct wrappedR1 "Widget missing" =
        .ok ⟨"Widget missing", NOT_FOUND, some "r-1", none, none⟩ := rfl
    rw [hstep] at hc
    exact Except.ok.inj hc
  subst hex
  have hcause := congrArg SerializedException.cause hj
  exact CauseField.noConfusion hcause

/-- C6 — amended.  Every field except `stack` and `cause` appears unchanged in
`serialize()`'s output; `cause` is passed through `JSON.stringify`, so an
absent cause serializes to `undefined` (not the string `"undefined"`).  The
`NotFoundException("Widget missing")` example under `requestId = "r-1"`
yields `{ message: "Widget missing", code: "NOT_FOUND", correlationId: "r-1",
cause: undefined, metadata: undefined }`. -/
theorem serialize_roundtrip_fields (s : Option JsVal) (r : JsVal)
    (hr : (RequestContext.currentContext s).bind requestField = some r)
    (hrid : requestIdField r = some "r-1") :
    NotFoundException.construct s "Widget missing" =
      .ok ⟨"Widget missing", NOT_FOUND, some "r-1", none, none⟩ ∧
    ExceptionBase.toJSON ⟨"Widget missing", NOT_FOUND, some "r-1", none, none⟩ =
      ⟨"Widget missing", "NOT_FOUND", some "r-1", .undef, none⟩ ∧
    (∀ ex : ExceptionData,
      (ExceptionBase.toJSON ex).message = ex.message ∧
      (ExceptionBase.toJSON ex).code = ex.code ∧
      (ExceptionBase.toJSON ex).correlationId = ex.correlationId ∧
      (ExceptionBase.toJSON ex).metadata = ex.metadata) :=
  ⟨construct_ok NOT_FOUND s r "r-1" "Widget missing" none none hr hrid,
   rfl, fun _ => ⟨rfl, rfl, rfl, rfl⟩⟩

theorem serialize_roundtrip_fields_witness :
    NotFoundException.construct wrappedR1 "Widget missing" =
      .ok ⟨"Widget missing", NOT_FOUND, some "r-1", none, none⟩ ∧
    ExceptionBase.toJSON ⟨"Widget missing", NOT_FOUND, some "r-1", none, none⟩ =
      ⟨"Widget missing", "NOT_FOUND", some "r-1", .undef, none⟩ :=
  ⟨(serialize_roundtrip_fields wrappedR1
      (.appReqCtx (.prim "httpReq") (.prim "httpRes") (some "r-1")) rfl rfl).1,
   (serialize_roundtrip_fields wrappedR1
      (.appReqCtx (.prim "httpReq") (.prim "httpRes") (some "r-1")) rfl rfl).2.1⟩

/-- C7 — an exception constructed with a plain runtime `Error` as `cause`
serializes with a `cause` field that is a string (the `JSON.stringify`
flattening), never the live error object. -/
theorem serialize_flattens_cause (code : String) (s : Option JsVal) (msg : String)
    (err : JsError) (md : Option Metadata) (ex : ExceptionData)
    (h : ExceptionBase.construct code s msg (some err) md = .ok ex) :
    (ExceptionBase.toJSON ex).cause = .str (jsonStringifyError err) ∧
    ∀ e : JsError, (ExceptionBase.toJSON ex).cause ≠ .errObj e := by
  have hcause : ex.cause = some err := by
    unfold ExceptionBase.construct at h
    cases hg : RequestContextService.getContext s with
    | error e => rw [hg] at h; exact Except.noConfusion h
    | ok r =>
      rw [hg] at h
      have h' := Except.ok.inj h
      rw [← h']
  have hj : (ExceptionBase.toJSON ex).cause = jsonStringifyCause ex.cause := rfl
  rw [hj, hcause]
  exact ⟨rfl, fun e he => CauseField.noConfusion he⟩

theorem serialize_flattens_cause_witness :
    (ExceptionBase.toJSON ⟨"m", "X", some "abc", some ⟨"boom"⟩, none⟩).cause =
      .str (jsonStringifyError ⟨"boom"⟩) ∧
    ∀ e : JsError,
      (ExceptionBase.toJSON ⟨"m", "X", some "abc", some ⟨"boom"⟩, none⟩).cause ≠ .errObj e :=
  serialize_flattens_cause "X" wrappedAbc "m" ⟨"boom"⟩ none
    ⟨"m", "X", some "abc", some ⟨"boom"⟩, none⟩ rfl

/-! ## Helper lemmas for the interleaving model -/

theorem runSeg_obs {α : Type} (frame : Option α) (tid : Nat) :
    ∀ (ops : List AsyncModel.Op), ∀ p ∈ (AsyncModel.runSeg frame tid ops).1, p = (tid, frame)
  | [], p, hp => absurd hp (List.not_mem_nil p)
  | AsyncModel.Op.observe :: rest, p, hp => by
    rcases List.mem_cons.mp (by simpa [AsyncModel.runSeg] using hp) with h | h
    · exact h
    · exact runSeg_obs frame tid rest p h
  | AsyncModel.Op.suspend :: rest, p, hp => absurd hp (by simp [AsyncModel.runSeg])

theorem step_consistent {α : Type} (f : Nat → Option α) (m : AsyncModel.Machine α) (i : Nat)
    (h : AsyncModel.Consistent f m) : AsyncModel.Consistent f (AsyncModel.step m i) := by
  unfold AsyncModel.step
  split
  next => exact h
  next c hg =>
    have hc : c ∈ m.tasks := List.getElem?_mem hg
    have hcf : c.frame = f c.tid := h.1 c hc
    constructor
    · intro c' hc'
      rcases List.mem_append.mp hc' with h1 | h2
      · exact h.1 c' (List.mem_of_mem_eraseIdx h1)
      · cases hr : (AsyncModel.runSeg c.frame c.tid c.rest).2 with
        | none => rw [hr] at h2; exact absurd h2 (List.not_mem_nil c')
        | some rest =>
          rw [hr] at h2
          rw [List.mem_singleton.mp h2]
          exact hcf
    · intro p hp
      rcases List.mem_append.mp hp with h1 | h2
      · exact h.2 p h1
      · rw [runSeg_obs c.frame c.tid c.rest p h2]
        exact hcf

theorem exec_consistent {α : Type} (f : Nat → Option α) :
    ∀ (sched : List Nat) (m : AsyncModel.Machine α), AsyncModel.Consistent f m →
      AsyncModel.Consistent f (AsyncModel.exec m sched)
  | [], _, h => h
  | i :: is, m, h => exec_consistent f is (AsyncModel.step m i) (step_consistent f m i h)

/-- C4 — inside a `run` extent every `getStore()` observation, whether made
before, between or after suspension points and under any interleaving with
other work, returns exactly the context value that was entered (the stored
value is propagated, never rebuilt); code whose extent lies outside every
`run` scope observes the empty result `none`. -/
theorem context_identity_per_extent {α : Type} (c : α) (body outside : List AsyncModel.Op)
    (sched : List Nat) :
    ∀ p ∈ (AsyncModel.exec (AsyncModel.scopedAndUnscoped c body outside) sched).log,
      (p.1 = 0 → p.2 = some c) ∧ (p.1 ≠ 0 → p.2 = none) := by
  have hinit : AsyncModel.Consistent (fun t => if t = 0 then some c else none)
      (AsyncModel.scopedAndUnscoped c body outside) := by
    constructor
    · intro c' hc'
      rcases List.mem_cons.mp hc' with h | h
      · rw [h]; rfl
      · rcases List.mem_cons.mp h with h' | h'
        · rw [h']; rfl
        · exact absurd h' (List.not_mem_nil c')
    · intro p hp
      exact absurd hp (List.not_mem_nil p)
  have hfin := exec_consistent (fun t => if t = 0 then some c else none) sched _ hinit
  intro p hp
  have hp2 : p.2 = if p.1 = 0 then some c else none := hfin.2 p hp
  constructor
  · intro h0
    rw [h0] at hp2
    simpa using hp2
  · intro h0
    rw [if_neg h0] at hp2
    exact hp2

theorem context_identity_per_extent_witness :
    ((0, some 7) ∈ (AsyncModel.exec (AsyncModel.scopedAndUnscoped (7 : Nat)
        [AsyncModel.Op.observe, AsyncModel.Op.suspend, AsyncModel.Op.observe]
        [AsyncModel.Op.observe]) [0, 1, 0]).log ∧
      ((0, some 7) : Nat × Option Nat).2 = some 7) ∧
    ((1, none) ∈ (AsyncModel.exec (AsyncModel.scopedAndUnscoped (7 : Nat)
        [AsyncModel.Op.observe, AsyncModel.Op.suspend, AsyncModel.Op.observe]
        [AsyncModel.Op.observe]) [0, 1, 0]).log ∧
      ((1, none) : Nat × Option Nat).2 = none) :=
  ⟨⟨by decide, (context_identity_per_extent 7
      [AsyncModel.Op.observe, AsyncModel.Op.suspend, AsyncModel.Op.observe]
      [AsyncModel.Op.observe] [0, 1, 0] (0, some 7) (by decide)).1 rfl⟩,
   ⟨by decide, (context_identity_per_extent 7
      [AsyncModel.Op.observe, AsyncModel.Op.suspend, AsyncModel.Op.observe]
      [AsyncModel.Op.observe] [0, 1, 0] (1, none) (by decide)).2 (by decide)⟩⟩

/-- C5 — two request extents with distinct contexts interleaved in any order
on the shared store: every observation made by request 0's call graph yields
request 0's context and never request 1's, and symmetrically. -/
theorem concurrent_requests_isolated {α : Type} (c0 c1 : α) (b0 b1 : List AsyncModel.Op)
    (sched : List Nat) (hne : c0 ≠ c1) :
    ∀ p ∈ (AsyncModel.exec (AsyncModel.twoRequests c0 c1 b0 b1) sched).log,
      (p.1 = 0 → p.2 = some c0 ∧ p.2 ≠ some c1) ∧
      (p.1 = 1 → p.2 = some c1 ∧ p.2 ≠ some c0) := by
  have hinit : AsyncModel.Consistent (fun t => if t = 0 then some c0 else some c1)
      (AsyncModel.twoRequests c0 c1 b0 b1) := by
    constructor
    · intro c' hc'
      rcases List.mem_cons.mp hc' with h | h
      · rw [h]; rfl
      · rcases List.mem_cons.mp h with h' | h'
        · rw [h']; rfl
        · exact absurd h' (List.not_mem_nil c')
    · intro p hp
      exact absurd hp (List.not_mem_nil p)
  have hfin := exec_consistent (fun t => if t = 0 then some c0 else some c1) sched _ hinit
  intro p hp
  have hp2 : p.2 = if p.1 = 0 then some c0 else some c1 := hfin.2 p hp
  constructor
  · intro h0
    rw [h0] at hp2
    simp only [if_pos rfl] at hp2
    refine ⟨hp2, ?_⟩
    rw [hp2]
    intro hcon
    exact hne (Option.some.inj hcon)
  · intro h1
    rw [h1] at hp2
    simp only [one_ne_zero, if_false] at hp2
    refine ⟨hp2, ?_⟩
    rw [hp2]
    intro hcon
    exact hne (Option.some.inj hcon).symm

theorem concurrent_requests_isolated_witness :
    (1 : Nat) ≠ 2 ∧
    (0, some 1) ∈ (AsyncModel.exec (AsyncModel.twoRequests (1 : Nat) 2
        [AsyncModel.Op.observe, AsyncModel.Op.suspend, AsyncModel.Op.observe]
        [AsyncModel.Op.observe, AsyncModel.Op.suspend, AsyncModel.Op.observe])
        [0, 1, 0, 1]).log ∧
    ((0, some 1) : Nat × Option Nat).2 = some 1 ∧
    ((0, some 1) : Nat × Option Nat).2 ≠ some 2 :=
  ⟨by decide, by decide,
   (concurrent_requests_isolated 1 2
      [AsyncModel.Op.observe, AsyncModel.Op.suspend, AsyncModel.Op.observe]
      [AsyncModel.Op.observe, AsyncModel.Op.suspend, AsyncModel.Op.observe]
      [0, 1, 0, 1] (by decide) (0, some 1) (by decide)).1 rfl⟩

/-! ## Helper lemmas for the emptiness guard -/

theorem allEmpty_iff_forall (xs : List JSValue) :
    allEmpty xs = true ↔ ∀ x ∈ xs, isEmpty x = true := by
  induction xs with
  | nil => simp [allEmpty]
  | cons x xs ih => simp [allEmpty, Bool.and_eq_true, ih, List.forall_mem_cons]

theorem isEmpty_iff_spec : ∀ v : JSValue, isEmpty v = true ↔ IsEmptySpec v
  | .jsNull => ⟨fun _ => .isNull, fun _ => rfl⟩
  | .undef => ⟨fun _ => .isUndef, fun _ => rfl⟩
  | .num n => ⟨fun h => Bool.noConfusion h, fun h => nomatch h⟩
  | .bool b => ⟨fun h => Bool.noConfusion h, fun h => nomatch h⟩
  | .date => ⟨fun h => Bool.noConfusion h, fun h => nomatch h⟩
  | .other => ⟨fun h => Bool.noConfusion h, fun h => nomatch h⟩
  | .str s => by
    constructor
    · intro h
      exact IsEmptySpec.blankStr s (by simpa [isEmpty] using h)
    · intro h
      cases h with
      | blankStr _ hh => simp [isEmpty, hh]
  | .obj props => by
    constructor
    · intro h
      have hlen : props.length = 0 := by simpa [isEmpty] using h
      rw [List.length_eq_zero.mp hlen]
      exact .emptyObj
    · intro h
      cases h
      rfl
  | .arr xs => by
    have ih : ∀ x ∈ xs, (isEmpty x = true ↔ IsEmptySpec x) := fun x hx => isEmpty_iff_spec x
    constructor
    · intro h
      rcases (by simpa [isEmpty, Bool.or_eq_true] using h :
          xs.length = 0 ∨ allEmpty xs = true) with h0 | hall
      · rw [List.length_eq_zero.mp h0]
        exact .emptyArr
      · exact IsEmptySpec.allEmptyArr xs
          (fun x hx => (ih x hx).mp ((allEmpty_iff_forall xs).mp hall x hx))
    · intro h
      cases h with
      | emptyArr => rfl
      | allEmptyArr _ hall =>
        have hA : allEmpty xs = true :=
          (allEmpty_iff_forall xs).mpr (fun x hx => (ih x hx).mpr (hall x hx))
        simp [isEmpty, hA]

/-- C10 — `isEmpty` is a total structurally recursive function, and it returns
`true` exactly on the values the claim enumerates: null/undefined, strings
whose trimmed length is zero, arrays that are empty or all of whose elements
are recursively empty, and non-Date non-array objects with no own enumerable
keys; it returns `false` for every number, every boolean, and every `Date`. -/
theorem isEmpty_matches_spec :
    (∀ v, isEmpty v = true ↔ IsEmptySpec v) ∧
    (∀ n, isEmpty (.num n) = false) ∧
    (∀ b, isEmpty (.bool b) = false) ∧
    isEmpty .date = false :=
  ⟨isEmpty_iff_spec, fun _ => rfl, fun _ => rfl, rfl⟩
